import Mathlib

/-!
Shallow embedding of the CostGuardian log exporter
(`src/frontend/components/log-downloader.tsx`) and proofs about it.

Modelling conventions, fixed once for the whole file:

* A JavaScript `Date` is modelled as a calendar `Timestamp` (local time) with
  millisecond precision; the environment timezone is taken to be UTC, so
  `getFullYear`/`getMonth`/`getDate` and the date part of `toISOString` agree.
  Comparison of `Date` objects (epoch milliseconds) is modelled by `Timestamp.key`,
  a linear encoding that is strictly monotone in the calendar fields for valid
  timestamps, hence orders valid timestamps exactly as epoch time does.
* JavaScript numbers holding savings are modelled as exact rationals (`Rat`).
  The source's final `"$" + x.toFixed(2)` rendering of each figure is a
  display-formatting step at the output boundary and is not modelled; document
  fields hold the unrounded values the source computes before formatting.
  The `||` operator's falsiness of `0`, `undefined` and `NaN` is modelled
  explicitly at each use site.
* A JavaScript plain object used as a string-keyed accumulator preserves key
  insertion order (the keys used here are never integer-like), so it is
  modelled as an insertion-ordered association list.
* `Array.prototype.sort()` with no comparator on the key strings produced here
  (fixed-width `YYYY-MM` / `YYYY-MM-DD` keys) orders by the string order, which
  is modelled by insertion sort over `String`'s linear order.
* Browser I/O (`downloadJSON`'s blob/DOM work, `alert`, locale rendering
  `toLocaleString`, and filename templating) is the delivery boundary: the
  export functions here return a `DownloadResult` carrying either the assembled
  document or the signalled condition, instead of performing the side effect.
-/

namespace CostGuardian

/-- Timestamp in local calendar time with millisecond precision, the shallow
embedding of a parsed JavaScript `Date`. `month` is 1-based (1..12). -/
structure Timestamp where
  year : Nat
  month : Nat
  day : Nat
  hour : Nat
  minute : Nat
  second : Nat
  ms : Nat
  deriving DecidableEq, Repr

/-- Linear key of a timestamp: strictly monotone in lexicographic field order
whenever the fields are within calendar bounds, so `key`-comparison models the
epoch-millisecond comparison JavaScript performs on `Date` objects. -/
def Timestamp.key (t : Timestamp) : Nat :=
  (((((t.year * 13 + t.month) * 32 + t.day) * 24 + t.hour) * 60 + t.minute) * 60
      + t.second) * 1000 + t.ms

/-- Leap-year test of the Gregorian calendar, as `Date` normalization uses. -/
def isLeapYear (y : Nat) : Bool :=
  (y % 4 == 0 && y % 100 != 0) || y % 400 == 0

/-- Number of days in month `m` (1..12) of year `y`. `new Date(y, m, 0, ...)`
in the source normalizes day 0 of the next month to this last day. -/
def daysInMonth (y m : Nat) : Nat :=
  if m = 2 then (if isLeapYear y then 29 else 28)
  else if m = 4 ∨ m = 6 ∨ m = 9 ∨ m = 11 then 30
  else 31

/-- Validity of a timestamp's calendar fields (what a parsed `Date` guarantees). -/
def Timestamp.Valid (t : Timestamp) : Prop :=
  1 ≤ t.month ∧ t.month ≤ 12 ∧ 1 ≤ t.day ∧ t.day ≤ daysInMonth t.year t.month ∧
    t.hour ≤ 23 ∧ t.minute ≤ 59 ∧ t.second ≤ 59 ∧ t.ms ≤ 999

instance (t : Timestamp) : Decidable t.Valid := by
  unfold Timestamp.Valid; infer_instance

/-- One deletion record as consumed by the component. Optional fields model
properties that may be absent (`undefined`) on the untyped input object. -/
structure DeletionEvent where
  resource_type : String
  resource_id : String
  resource_name : Option String
  deleted_at : Timestamp
  monthly_savings : Option Rat
  annual_savings : Option Rat
  region : Option String
  deriving DecidableEq, Repr

/-- Input of the component: `data.deleted_resources` (possibly absent) and
`data.config.aws_region` (possibly absent). -/
structure DashboardData where
  deleted_resources : Option (List DeletionEvent)
  config_aws_region : Option String
  deriving DecidableEq, Repr

/-- Value of `data?.deleted_resources` for a possibly-absent `data`. -/
def dashEvents (data : Option DashboardData) : Option (List DeletionEvent) :=
  data.bind DashboardData.deleted_resources

/-- Value of `data?.config?.aws_region` for a possibly-absent `data`. -/
def dashRegion (data : Option DashboardData) : Option String :=
  data.bind DashboardData.config_aws_region

/-- JavaScript `a || b` for an optional string `a`: the empty string and
`undefined` are falsy, any other string is returned as is. -/
def jsOrString (a : Option String) (b : String) : String :=
  match a with
  | some s => if s = "" then b else s
  | none => b

/-- Value of `r.monthly_savings || 0`: `undefined` (and `0` itself) yield `0`. -/
def msVal (r : DeletionEvent) : Rat :=
  (r.monthly_savings.getD 0 : Rat)

/-- Value of `r.annual_savings || r.monthly_savings * 12 || 0`. A present but
zero `annual_savings` is falsy and falls through to `monthly_savings * 12`;
an absent `monthly_savings` makes `r.monthly_savings * 12` evaluate to `NaN`,
which is falsy and yields the final `0` (equal to `msVal r * 12` in that case). -/
def annualValue (r : DeletionEvent) : Rat :=
  match r.annual_savings with
  | some a => if a = 0 then msVal r * 12 else a
  | none => msVal r * 12

/-- Left fold of the source's `reduce((sum, r) => sum + f(r), 0)` pattern. -/
def sumBy (f : DeletionEvent → Rat) (rs : List DeletionEvent) : Rat :=
  rs.foldl (fun sum r => sum + f r) 0

/-- Two-digit zero padding, as `String(n).padStart(2, "0")`. -/
def pad2 (n : Nat) : String :=
  if n < 10 then "0" ++ toString n else toString n

/-- Bucket key `` `${date.getFullYear()}-${String(date.getMonth()+1).padStart(2,"0")}` ``. -/
def Timestamp.monthKey (t : Timestamp) : String :=
  toString t.year ++ "-" ++ pad2 t.month

/-- Day key `date.toISOString().split("T")[0]`, i.e. `YYYY-MM-DD` (UTC = local
by the timezone convention above). -/
def Timestamp.dayKey (t : Timestamp) : String :=
  toString t.year ++ "-" ++ pad2 t.month ++ "-" ++ pad2 t.day

/-- Month-name lookup `months[monthIndex]` with a 0-based index; an index out
of range gives JavaScript `undefined`, rendered here as the string
`"undefined"`. -/
def getMonthName (monthIndex : Nat) : String :=
  (["January", "February", "March", "April", "May", "June", "July", "August",
      "September", "October", "November", "December"].get? monthIndex).getD
    "undefined"

/-- Lexicographic strict comparison of character lists by code point, the
order JavaScript's default `sort()` comparator induces on the (ASCII) key
strings used in this component. Defined structurally so that it evaluates
inside the kernel. -/
def charsLtb : List Char → List Char → Bool
  | _, [] => false
  | [], _ :: _ => true
  | c :: cs, d :: ds => if c = d then charsLtb cs ds else decide (c.toNat < d.toNat)

/-- String comparison `a ≤ b` in the lexicographic code-point order. -/
def strLeb (a b : String) : Bool :=
  !charsLtb b.data a.data

/-- Propositional form of `strLeb`. -/
def strLe (a b : String) : Prop :=
  strLeb a b = true

instance (a b : String) : Decidable (strLe a b) := by
  unfold strLe; infer_instance

/-- Split of a string at every occurrence of a separator character, modelling
`s.split("-")` structurally. -/
def splitAtChar (sep : Char) (acc : List Char) : List Char → List String
  | [] => [String.mk acc.reverse]
  | c :: cs =>
      if c = sep then String.mk acc.reverse :: splitAtChar sep [] cs
      else splitAtChar sep (c :: acc) cs

/-- Value of `s.split("-")`. -/
def jsSplitDash (s : String) : List String :=
  splitAtChar '-' [] s.data

/-- Value of `parseInt(s)` on the all-digit strings this component feeds it. -/
def parseNat (s : String) : Nat :=
  s.data.foldl (fun n c => n * 10 + (c.toNat - 48)) 0

/-- Mutable per-group accumulator `{count, savings}` of the breakdown helpers. -/
structure Accum where
  count : Nat
  savings : Rat
  deriving DecidableEq, Repr

/-- Record one event with savings `s` under key `k` in the insertion-ordered
accumulator object: update the existing entry in place, or append a fresh
`{count: 1, savings: s}` entry at the end (JavaScript object insertion order). -/
def bump (m : List (String × Accum)) (k : String) (s : Rat) : List (String × Accum) :=
  match m with
  | [] => [(k, ⟨1, s⟩)]
  | (k', a) :: rest =>
      if k' = k then (k', ⟨a.count + 1, a.savings + s⟩) :: rest
      else (k', a) :: bump rest k s

/-- Accumulator object built by the `resources.forEach` loop of each breakdown
helper: group by `key`, accumulating `count` and `monthly_savings || 0`. -/
def groupAccum (key : DeletionEvent → String) (rs : List DeletionEvent) :
    List (String × Accum) :=
  rs.foldl (fun m r => bump m (key r) (msVal r)) []

/-- Ordered insertion of one entry into a key-sorted association list. -/
def insKey (p : String × Accum) : List (String × Accum) → List (String × Accum)
  | [] => [p]
  | q :: rest => if strLeb p.1 q.1 then p :: q :: rest else q :: insKey p rest

/-- Key-ascending sort of the entry list, modelling `Object.entries(b).sort()`
(the default comparator on the stringified `[key, value]` pairs orders the
fixed-width keys used here by the string order on the key). -/
def sortByKey (l : List (String × Accum)) : List (String × Accum) :=
  l.foldr insKey []

/-- Entry of `getBreakdownByType`'s result (savings figures unrounded; the
source renders them as `"$" + x.toFixed(2)`). -/
structure TypeEntry where
  type : String
  count : Nat
  monthly_savings : Rat
  annual_savings : Rat
  deriving DecidableEq, Repr

/-- Helper `getBreakdownByType`: group by `resource_type` in first-occurrence
order (no sort in the source), annualizing each group as `savings * 12`. -/
def getBreakdownByType (resources : List DeletionEvent) : List TypeEntry :=
  (groupAccum (fun r => r.resource_type) resources).map fun p =>
    { type := p.1, count := p.2.count, monthly_savings := p.2.savings,
      annual_savings := p.2.savings * 12 }

/-- Key-sorted month accumulator, the `Object.entries(breakdown).sort()` stage
of `getBreakdownByMonth`. -/
def monthAlist (resources : List DeletionEvent) : List (String × Accum) :=
  sortByKey (groupAccum (fun r => r.deleted_at.monthKey) resources)

/-- Entry of `getBreakdownByMonth`'s result. -/
structure MonthEntry where
  month : String
  year : String
  count : Nat
  monthly_savings : Rat
  annual_savings : Rat
  deriving DecidableEq, Repr

/-- Rebuild one month entry from a sorted `[monthYear, info]` pair, splitting
the key back into year and month as the source does. -/
def monthEntryOf (p : String × Accum) : MonthEntry :=
  let parts := jsSplitDash p.1
  let year := (parts.get? 0).getD ""
  let month := parseNat ((parts.get? 1).getD "")
  { month := getMonthName (month - 1), year := year, count := p.2.count,
    monthly_savings := p.2.savings, annual_savings := p.2.savings * 12 }

/-- Helper `getBreakdownByMonth`: group by `YYYY-MM` key, sort ascending by
key, then render each entry with month name and year. -/
def getBreakdownByMonth (resources : List DeletionEvent) : List MonthEntry :=
  (monthAlist resources).map monthEntryOf

/-- Key-sorted day accumulator, the `Object.entries(breakdown).sort()` stage
of `getBreakdownByDay`. -/
def dayAlist (resources : List DeletionEvent) : List (String × Accum) :=
  sortByKey (groupAccum (fun r => r.deleted_at.dayKey) resources)

/-- Entry of `getBreakdownByDay`'s result (the locale-rendered `date_readable`
string is display formatting and is not modelled). -/
structure DayEntry where
  date : String
  count : Nat
  monthly_savings : Rat
  deriving DecidableEq, Repr

/-- Helper `getBreakdownByDay`: group by `YYYY-MM-DD` key, sort ascending. -/
def getBreakdownByDay (resources : List DeletionEvent) : List DayEntry :=
  (dayAlist resources).map fun p =>
    { date := p.1, count := p.2.count, monthly_savings := p.2.savings }

/-- Date range of `export_info` (`from`/`to`; `from` is a Lean keyword, hence
`fromTime`/`toTime`). The source stores `toISOString()` renderings; ISO
rendering is injective on valid timestamps, so the timestamps themselves are
kept. -/
structure DateRange where
  fromTime : Timestamp
  toTime : Timestamp
  deriving DecidableEq, Repr

/-- Metadata block `export_info` of an export document. -/
structure ExportInfo where
  title : String
  export_date : Timestamp
  month : Option String
  year : Option String
  date_range : DateRange
  total_resources : Nat
  total_monthly_savings : Rat
  total_annual_savings : Rat
  deriving DecidableEq, Repr

/-- One enriched record of the document's `deleted_resources` list (the
locale-rendered `deleted_date_readable` string is display formatting and is
not modelled; savings figures are kept unrounded as above). -/
structure EnrichedResource where
  resource_type : String
  resource_id : String
  resource_name : String
  deleted_at : Timestamp
  monthly_savings : Rat
  annual_savings : Rat
  region : String
  deriving DecidableEq, Repr

/-- Enrichment of one event for `deleted_resources`, including the region
fallback chain `resource.region || data?.config?.aws_region || "us-east-1"`. -/
def enrich (data : Option DashboardData) (r : DeletionEvent) : EnrichedResource :=
  { resource_type := r.resource_type, resource_id := r.resource_id,
    resource_name := jsOrString r.resource_name "Unnamed",
    deleted_at := r.deleted_at, monthly_savings := msVal r,
    annual_savings := annualValue r,
    region := jsOrString r.region (jsOrString (dashRegion data) "us-east-1") }

/-- Summary block: always a by-type breakdown, plus the mode-specific by-month
(ALL_TIME) or by-day (SINGLE_MONTH) breakdown. -/
structure Summary where
  breakdown_by_type : List TypeEntry
  breakdown_by_month : Option (List MonthEntry)
  breakdown_by_day : Option (List DayEntry)
  deriving DecidableEq, Repr

/-- Assembled export document. -/
structure ExportDocument where
  export_info : ExportInfo
  deleted_resources : List EnrichedResource
  summary : Summary
  deriving DecidableEq, Repr

/-- Outcome of an export request: the `alert` for missing data, the `alert`
naming a month and year with no matching events, or the assembled document
handed to `downloadJSON`. -/
inductive DownloadResult where
  | emptyInput : DownloadResult
  | noMatch (month : String) (year : String) : DownloadResult
  | success (doc : ExportDocument) : DownloadResult
  deriving DecidableEq, Repr

/-- Document carried by a successful outcome, if any. -/
def DownloadResult.doc? : DownloadResult → Option ExportDocument
  | .success doc => some doc
  | _ => none

/-- Helper `getAvailableMonths`: distinct `YYYY-MM` keys of the events,
collected into an insertion-ordered set, sorted ascending, then reversed.
`addDistinct`/`foldl` model the `Set` insertion loop. -/
def addDistinct (acc : List String) (k : String) : List String :=
  if k ∈ acc then acc else acc ++ [k]

/-- Ascending insertion sort on strings, modelling `Array.from(set).sort()`. -/
def insStr (s : String) : List String → List String
  | [] => [s]
  | q :: rest => if strLeb s q then s :: q :: rest else q :: insStr s rest

/-- Ascending string sort by repeated ordered insertion. -/
def sortStr (l : List String) : List String :=
  l.foldr insStr []

/-- Helper `getAvailableMonths` of the component. -/
def getAvailableMonths (data : Option DashboardData) : List String :=
  match dashEvents data with
  | none => []
  | some rs =>
      if rs.isEmpty then []
      else (sortStr ((rs.map fun r => r.deleted_at.monthKey).foldl addDistinct [])).reverse

/-- Filter predicate of `downloadAllLogs`: `deletedDate <= currentDate`. -/
def upToFilterKeep (currentDate : Timestamp) (r : DeletionEvent) : Bool :=
  decide (r.deleted_at.key ≤ currentDate.key)

/-- Document literal assembled by `downloadAllLogs` over the already-filtered
resources: title, date range taken from the LAST element of the filtered
array (`filteredResources[filteredResources.length - 1]`, guarded by the
length), totals, enriched records, by-type and by-month breakdowns. -/
def allTimeDoc (data : Option DashboardData) (currentDate : Timestamp)
    (filteredResources : List DeletionEvent) : ExportDocument :=
  { export_info :=
      { title := "CostGuardian - Complete Deletion Log",
        export_date := currentDate, month := none, year := none,
        date_range :=
          { fromTime :=
              match filteredResources.getLast? with
              | some r => r.deleted_at
              | none => currentDate,
            toTime := currentDate },
        total_resources := filteredResources.length,
        total_monthly_savings := sumBy msVal filteredResources,
        total_annual_savings := sumBy annualValue filteredResources },
    deleted_resources := filteredResources.map (enrich data),
    summary :=
      { breakdown_by_type := getBreakdownByType filteredResources,
        breakdown_by_month := some (getBreakdownByMonth filteredResources),
        breakdown_by_day := none } }

/-- Operation `downloadAllLogs`: guard on missing/empty data, filter up to the
current date, and assemble the ALL_TIME document. The filename templating and
`downloadJSON` delivery are the external boundary. -/
def downloadAllLogs (data : Option DashboardData) (currentDate : Timestamp) :
    DownloadResult :=
  match dashEvents data with
  | none => .emptyInput
  | some rs =>
      if rs.isEmpty then .emptyInput
      else .success (allTimeDoc data currentDate (rs.filter (upToFilterKeep currentDate)))

/-- Start of the requested month: `new Date(year, month - 1, 1)`. -/
def monthStartDate (year month : Nat) : Timestamp :=
  ⟨year, month, 1, 0, 0, 0, 0⟩

/-- End of the requested month: `new Date(year, month, 0, 23, 59, 59)`, which
normalizes to the month's last day at 23:59:59.000 (no milliseconds). -/
def monthEndDate (year month : Nat) : Timestamp :=
  ⟨year, month, daysInMonth year month, 23, 59, 59, 0⟩

/-- Filter predicate of `downloadMonthLog`:
`deletedDate >= startDate && deletedDate <= endDate`. -/
def monthFilterKeep (year month : Nat) (r : DeletionEvent) : Bool :=
  decide ((monthStartDate year month).key ≤ r.deleted_at.key) &&
    decide (r.deleted_at.key ≤ (monthEndDate year month).key)

/-- Document literal assembled by `downloadMonthLog`. The source receives the
month as a `"YYYY-MM"` string and parses `year` and `month` with
`split`/`parseInt`; the embedding takes the parsed pair directly (`year` is
rendered back with `toString` where the source reuses the split string).
`now` is the `new Date()` taken for `export_date`. -/
def monthDoc (data : Option DashboardData) (year month : Nat) (now : Timestamp)
    (filteredResources : List DeletionEvent) : ExportDocument :=
  { export_info :=
      { title := "CostGuardian - " ++ getMonthName (month - 1) ++ " " ++
          toString year ++ " Deletion Log",
        export_date := now,
        month := some (getMonthName (month - 1)),
        year := some (toString year),
        date_range :=
          { fromTime := monthStartDate year month,
            toTime := monthEndDate year month },
        total_resources := filteredResources.length,
        total_monthly_savings := sumBy msVal filteredResources,
        total_annual_savings := sumBy annualValue filteredResources },
    deleted_resources := filteredResources.map (enrich data),
    summary :=
      { breakdown_by_type := getBreakdownByType filteredResources,
        breakdown_by_month := none,
        breakdown_by_day := some (getBreakdownByDay filteredResources) } }

/-- Operation `downloadMonthLog` proper: guard on missing/empty data, filter
to the requested month's window, signal the no-match alert naming month and
year when nothing remains, otherwise assemble the SINGLE_MONTH document. -/
def downloadMonthLog (data : Option DashboardData) (year month : Nat)
    (now : Timestamp) : DownloadResult :=
  match dashEvents data with
  | none => .emptyInput
  | some rs =>
      if rs.isEmpty then .emptyInput
      else
        let filteredResources := rs.filter (monthFilterKeep year month)
        if filteredResources.isEmpty then
          .noMatch (getMonthName (month - 1)) (toString year)
        else .success (monthDoc data year month now filteredResources)

/-- Region resolution as the specification states it: the event's own region
when that is a non-empty string, otherwise the configured default region when
that is a non-empty string, otherwise the literal `"us-east-1"`. Written from
the spec's words, to be compared with the `enrich` fallback chain. -/
def regionSpec (own dflt : Option String) : String :=
  match own with
  | some r =>
      if r = "" then
        match dflt with
        | some d => if d = "" then "us-east-1" else d
        | none => "us-east-1"
      else r
  | none =>
      match dflt with
      | some d => if d = "" then "us-east-1" else d
      | none => "us-east-1"

/-- Ordering of the events' keys in an insertion-ordered set or accumulator:
each key of `l` in order of first occurrence. -/
def firstOccur (l : List String) : List String :=
  l.foldl addDistinct []

/-- Property of an input collection ordered newest-first (the order under
which the ALL_TIME `date_range.from` choice picks the oldest event). -/
def NewestFirst (rs : List DeletionEvent) : Prop :=
  rs.Pairwise fun a b => b.deleted_at.key ≤ a.deleted_at.key

instance (rs : List DeletionEvent) : Decidable (NewestFirst rs) := by
  unfold NewestFirst; infer_instance

/-- Sum of the `count` fields of an accumulator's entries. -/
def sumCounts (l : List (String × Accum)) : Nat :=
  (l.map fun p => p.2.count).sum

/-- Sum of the `savings` fields of an accumulator's entries. -/
def sumSavings (l : List (String × Accum)) : Rat :=
  (l.map fun p => p.2.savings).sum

/-- Fixture: an EC2 deletion on 2025-01-15 with monthly savings 10 and no
explicit annual savings. -/
def eJan : DeletionEvent :=
  { resource_type := "EC2", resource_id := "i-1", resource_name := some "web",
    deleted_at := ⟨2025, 1, 15, 10, 0, 0, 0⟩, monthly_savings := some 10,
    annual_savings := none, region := some "us-west-2" }

/-- Fixture: an EBS deletion on 2025-02-10 with monthly savings 20 and an
explicit annual savings of 0 (present but zero). -/
def eFeb : DeletionEvent :=
  { resource_type := "EBS", resource_id := "v-1", resource_name := none,
    deleted_at := ⟨2025, 2, 10, 9, 0, 0, 0⟩, monthly_savings := some 20,
    annual_savings := some 0, region := some "" }

/-- Fixture: a deletion on 2025-01-31 at 23:59:59.500, inside January but in
the last second's sub-second tail. -/
def eTail : DeletionEvent :=
  { resource_type := "EC2", resource_id := "i-9", resource_name := none,
    deleted_at := ⟨2025, 1, 31, 23, 59, 59, 500⟩, monthly_savings := some 5,
    annual_savings := none, region := none }

/-- Fixture: dashboard data wrapping a given event list with a configured
default region. -/
def mkData (rs : List DeletionEvent) : DashboardData :=
  { deleted_resources := some rs, config_aws_region := some "eu-west-1" }

/-- Fixture: a current date of 2025-03-01T00:00:00.000. -/
def nowTs : Timestamp :=
  ⟨2025, 3, 1, 0, 0, 0, 0⟩

/-- Fixture: a deletion at exactly January 2025's last labelled second,
2025-01-31T23:59:59.000. -/
def eBoundary : DeletionEvent :=
  { resource_type := "NAT", resource_id := "n-1", resource_name := none,
    deleted_at := ⟨2025, 1, 31, 23, 59, 59, 0⟩, monthly_savings := some 32,
    annual_savings := none, region := none }

/-- Fixture: an event with an explicit annual savings that is nonzero and
different from twelve times its monthly savings. -/
def eDev : DeletionEvent :=
  { resource_type := "RDS", resource_id := "d-1", resource_name := none,
    deleted_at := ⟨2025, 1, 20, 8, 0, 0, 0⟩, monthly_savings := some 10,
    annual_savings := some 100, region := none }

/-! ### Properties of the code-point string order -/

theorem char_toNat_inj {c d : Char} (h : c.toNat = d.toNat) : c = d :=
  Char.eq_of_val_eq (UInt32.ext h)

theorem string_data_inj {a b : String} (h : a.data = b.data) : a = b :=
  String.ext h

theorem charsLtb_irrefl (l : List Char) : charsLtb l l = false := by
  induction l with
  | nil => rfl
  | cons c cs ih => simp [charsLtb, ih]

theorem charsLtb_trans {l1 l2 l3 : List Char} (h12 : charsLtb l1 l2 = true)
    (h23 : charsLtb l2 l3 = true) : charsLtb l1 l3 = true := by
  induction l1 generalizing l2 l3 with
  | nil =>
    cases l2 with
    | nil => simp [charsLtb] at h12
    | cons d ds =>
      cases l3 with
      | nil => simp [charsLtb] at h23
      | cons e es => simp [charsLtb]
  | cons c cs ih =>
    cases l2 with
    | nil => simp [charsLtb] at h12
    | cons d ds =>
      cases l3 with
      | nil => simp [charsLtb] at h23
      | cons e es =>
        simp only [charsLtb] at h12 h23 ⊢
        by_cases hcd : c = d
        · subst hcd
          simp only [if_pos rfl] at h12
          by_cases hde : c = e
          · subst hde
            simp only [if_pos rfl] at h23 ⊢
            exact ih h12 h23
          · simpa [hde] using h23
        · by_cases hde : d = e
          · subst hde
            simpa [hcd] using h12
          · simp only [if_neg hcd] at h12
            simp only [if_neg hde] at h23
            have h1 : c.toNat < d.toNat := of_decide_eq_true h12
            have h2 : d.toNat < e.toNat := of_decide_eq_true h23
            by_cases hce : c = e
            · subst hce; omega
            · simp only [if_neg hce]
              exact decide_eq_true (by omega)

theorem charsLtb_eq_of_not {l1 l2 : List Char} (h12 : charsLtb l1 l2 = false)
    (h21 : charsLtb l2 l1 = false) : l1 = l2 := by
  induction l1 generalizing l2 with
  | nil =>
    cases l2 with
    | nil => rfl
    | cons d ds => simp [charsLtb] at h12
  | cons c cs ih =>
    cases l2 with
    | nil => simp [charsLtb] at h21
    | cons d ds =>
      simp only [charsLtb] at h12 h21
      by_cases hcd : c = d
      · subst hcd
        simp only [if_pos rfl] at h12 h21
        rw [ih h12 h21]
      · have hdc : d ≠ c := fun h => hcd h.symm
        simp only [if_neg hcd] at h12
        simp only [if_neg hdc] at h21
        have h1 : ¬ c.toNat < d.toNat := of_decide_eq_false h12
        have h2 : ¬ d.toNat < c.toNat := of_decide_eq_false h21
        exact absurd (char_toNat_inj (by omega)) hcd

theorem strLe_iff (a b : String) : strLe a b ↔ charsLtb b.data a.data = false := by
  simp [strLe, strLeb]

theorem strLe_refl (a : String) : strLe a a := by
  rw [strLe_iff]; exact charsLtb_irrefl a.data

theorem strLe_of_not (a b : String) (h : ¬ strLe a b) : strLe b a := by
  rw [strLe_iff] at h ⊢
  cases hy : charsLtb b.data a.data with
  | false => exact absurd hy h
  | true =>
    cases hx : charsLtb a.data b.data with
    | false => rfl
    | true =>
      have h2 := charsLtb_trans hx hy
      rw [charsLtb_irrefl] at h2
      cases h2

theorem strLe_total (a b : String) : strLe a b ∨ strLe b a := by
  by_cases h : strLe a b
  · exact Or.inl h
  · exact Or.inr (strLe_of_not a b h)

theorem strLe_trans {a b c : String} (hab : strLe a b) (hbc : strLe b c) :
    strLe a c := by
  rw [strLe_iff] at hab hbc ⊢
  cases hca : charsLtb c.data a.data with
  | false => rfl
  | true =>
    exfalso
    cases hx : charsLtb a.data b.data with
    | true =>
      have h2 := charsLtb_trans hca hx
      rw [hbc] at h2
      cases h2
    | false =>
      have hd : a.data = b.data := charsLtb_eq_of_not hx hab
      rw [hd] at hca
      rw [hbc] at hca
      cases hca

theorem strLe_antisymm {a b : String} (hab : strLe a b) (hba : strLe b a) :
    a = b := by
  rw [strLe_iff] at hab hba
  exact string_data_inj (charsLtb_eq_of_not hba hab)

/-! ### Insertion sort: permutation and sortedness -/

theorem insStr_perm (s : String) (l : List String) :
    List.Perm (insStr s l) (s :: l) := by
  induction l with
  | nil => exact List.Perm.refl _
  | cons q rest ih =>
    unfold insStr
    by_cases h : strLeb s q = true
    · rw [if_pos h]
    · rw [if_neg h]
      exact (ih.cons q).trans (List.Perm.swap s q rest)

theorem sortStr_perm (l : List String) : List.Perm (sortStr l) l := by
  induction l with
  | nil => exact List.Perm.refl _
  | cons x t ih => exact (insStr_perm x (sortStr t)).trans (ih.cons x)

theorem insStr_sorted (s : String) {l : List String} (h : l.Pairwise strLe) :
    (insStr s l).Pairwise strLe := by
  induction l with
  | nil => simp [insStr]
  | cons q rest ih =>
    rw [List.pairwise_cons] at h
    unfold insStr
    by_cases hle : strLeb s q = true
    · rw [if_pos hle]
      refine List.pairwise_cons.mpr ⟨?_, List.pairwise_cons.mpr h⟩
      intro b hb
      rcases List.mem_cons.mp hb with hb | hb
      · subst hb; exact hle
      · exact strLe_trans hle (h.1 b hb)
    · rw [if_neg hle]
      refine List.pairwise_cons.mpr ⟨?_, ih h.2⟩
      intro b hb
      rcases List.mem_cons.mp ((insStr_perm s rest).mem_iff.mp hb) with hb | hb
      · rw [hb]; exact strLe_of_not s q hle
      · exact h.1 b hb

theorem sortStr_sorted (l : List String) : (sortStr l).Pairwise strLe := by
  induction l with
  | nil => simp [sortStr]
  | cons x t ih => exact insStr_sorted x ih

theorem insKey_perm (p : String × Accum) (l : List (String × Accum)) :
    List.Perm (insKey p l) (p :: l) := by
  induction l with
  | nil => exact List.Perm.refl _
  | cons q rest ih =>
    unfold insKey
    by_cases h : strLeb p.1 q.1 = true
    · rw [if_pos h]
    · rw [if_neg h]
      exact (ih.cons q).trans (List.Perm.swap p q rest)

theorem sortByKey_perm (l : List (String × Accum)) :
    List.Perm (sortByKey l) l := by
  induction l with
  | nil => exact List.Perm.refl _
  | cons x t ih => exact (insKey_perm x (sortByKey t)).trans (ih.cons x)

theorem insKey_sorted (p : String × Accum) {l : List (String × Accum)}
    (h : l.Pairwise fun a b => strLe a.1 b.1) :
    (insKey p l).Pairwise fun a b => strLe a.1 b.1 := by
  induction l with
  | nil => simp [insKey]
  | cons q rest ih =>
    rw [List.pairwise_cons] at h
    unfold insKey
    by_cases hle : strLeb p.1 q.1 = true
    · rw [if_pos hle]
      refine List.pairwise_cons.mpr ⟨?_, List.pairwise_cons.mpr h⟩
      intro b hb
      rcases List.mem_cons.mp hb with hb | hb
      · subst hb; exact hle
      · exact strLe_trans hle (h.1 b hb)
    · rw [if_neg hle]
      refine List.pairwise_cons.mpr ⟨?_, ih h.2⟩
      intro b hb
      rcases List.mem_cons.mp ((insKey_perm p rest).mem_iff.mp hb) with hb | hb
      · rw [hb]; exact strLe_of_not p.1 q.1 hle
      · exact h.1 b hb

theorem sortByKey_sorted (l : List (String × Accum)) :
    (sortByKey l).Pairwise fun a b => strLe a.1 b.1 := by
  induction l with
  | nil => simp [sortByKey]
  | cons x t ih => exact insKey_sorted x ih

/-! ### Distinct-key collection -/

theorem mem_foldl_addDistinct (l : List String) (acc : List String) (k : String) :
    k ∈ l.foldl addDistinct acc ↔ k ∈ acc ∨ k ∈ l := by
  induction l generalizing acc with
  | nil => simp
  | cons x t ih =>
    rw [List.foldl_cons, ih]
    unfold addDistinct
    by_cases hx : x ∈ acc
    · rw [if_pos hx]
      constructor
      · rintro (h | h)
        · exact Or.inl h
        · exact Or.inr (List.mem_cons_of_mem x h)
      · rintro (h | h)
        · exact Or.inl h
        · rcases List.mem_cons.mp h with h | h
          · subst h; exact Or.inl hx
          · exact Or.inr h
    · rw [if_neg hx]
      simp only [List.mem_append, List.mem_singleton, List.mem_cons]
      tauto

theorem nodup_foldl_addDistinct (l : List String) {acc : List String}
    (h : acc.Nodup) : (l.foldl addDistinct acc).Nodup := by
  induction l generalizing acc with
  | nil => simpa
  | cons x t ih =>
    rw [List.foldl_cons]
    refine ih ?_
    unfold addDistinct
    by_cases hx : x ∈ acc
    · rwa [if_pos hx]
    · rw [if_neg hx]
      simp [List.nodup_append, h, hx]

/-! ### Accumulator conservation -/

theorem sumCounts_bump (m : List (String × Accum)) (k : String) (s : Rat) :
    sumCounts (bump m k s) = sumCounts m + 1 := by
  induction m with
  | nil => simp [bump, sumCounts]
  | cons q rest ih =>
    obtain ⟨k', a⟩ := q
    unfold bump
    by_cases h : k' = k
    · rw [if_pos h]
      simp [sumCounts]
      omega
    · rw [if_neg h]
      simp only [sumCounts, List.map_cons, List.sum_cons] at ih ⊢
      omega

theorem sumSavings_bump (m : List (String × Accum)) (k : String) (s : Rat) :
    sumSavings (bump m k s) = sumSavings m + s := by
  induction m with
  | nil => simp [bump, sumSavings]
  | cons q rest ih =>
    obtain ⟨k', a⟩ := q
    unfold bump
    by_cases h : k' = k
    · rw [if_pos h]
      simp [sumSavings]
      ring
    · rw [if_neg h]
      simp only [sumSavings, List.map_cons, List.sum_cons] at ih ⊢
      rw [ih]
      ring

theorem sumCounts_foldl_bump (key : DeletionEvent → String)
    (rs : List DeletionEvent) (m0 : List (String × Accum)) :
    sumCounts (rs.foldl (fun m r => bump m (key r) (msVal r)) m0) =
      sumCounts m0 + rs.length := by
  induction rs generalizing m0 with
  | nil => simp
  | cons x t ih =>
    rw [List.foldl_cons, ih, sumCounts_bump]
    simp
    omega

theorem sumCounts_groupAccum (key : DeletionEvent → String)
    (rs : List DeletionEvent) : sumCounts (groupAccum key rs) = rs.length := by
  rw [groupAccum, sumCounts_foldl_bump]
  simp [sumCounts]

theorem sumSavings_foldl_bump (key : DeletionEvent → String)
    (rs : List DeletionEvent) (m0 : List (String × Accum)) :
    sumSavings (rs.foldl (fun m r => bump m (key r) (msVal r)) m0) =
      sumSavings m0 + (rs.map msVal).sum := by
  induction rs generalizing m0 with
  | nil => simp
  | cons x t ih =>
    rw [List.foldl_cons, ih, sumSavings_bump]
    simp
    ring

theorem sumSavings_groupAccum (key : DeletionEvent → String)
    (rs : List DeletionEvent) :
    sumSavings (groupAccum key rs) = (rs.map msVal).sum := by
  rw [groupAccum, sumSavings_foldl_bump]
  simp [sumSavings]

theorem keys_bump (m : List (String × Accum)) (k : String) (s : Rat) :
    (bump m k s).map Prod.fst = addDistinct (m.map Prod.fst) k := by
  induction m with
  | nil => simp [bump, addDistinct]
  | cons q rest ih =>
    obtain ⟨k', a⟩ := q
    unfold bump
    by_cases h : k' = k
    · rw [if_pos h]
      subst h
      simp [addDistinct]
    · rw [if_neg h]
      have h' : k ≠ k' := fun hk => h hk.symm
      simp only [List.map_cons, ih]
      unfold addDistinct
      by_cases hk : k ∈ rest.map Prod.fst
      · rw [if_pos hk, if_pos (by simp [List.mem_cons, hk])]
      · rw [if_neg hk, if_neg (by simp [List.mem_cons, h', hk])]
        simp

theorem keys_groupAccum_aux (key : DeletionEvent → String)
    (rs : List DeletionEvent) (m0 : List (String × Accum)) :
    (rs.foldl (fun m r => bump m (key r) (msVal r)) m0).map Prod.fst =
      (rs.map key).foldl addDistinct (m0.map Prod.fst) := by
  induction rs generalizing m0 with
  | nil => simp
  | cons x t ih =>
    rw [List.foldl_cons, ih, keys_bump]
    simp

theorem keys_groupAccum (key : DeletionEvent → String)
    (rs : List DeletionEvent) :
    (groupAccum key rs).map Prod.fst = firstOccur (rs.map key) := by
  rw [groupAccum, keys_groupAccum_aux]
  rfl

/-! ### Sum of a left fold -/

theorem foldl_add_eq (f : DeletionEvent → Rat) (rs : List DeletionEvent)
    (a : Rat) : rs.foldl (fun sum r => sum + f r) a = a + (rs.map f).sum := by
  induction rs generalizing a with
  | nil => simp
  | cons x t ih =>
    rw [List.foldl_cons, ih]
    simp
    ring

theorem sumBy_eq (f : DeletionEvent → Rat) (rs : List DeletionEvent) :
    sumBy f rs = (rs.map f).sum := by
  rw [sumBy, foldl_add_eq]
  simp

/-! ### Last element of a pairwise-ordered list -/

theorem pairwise_getLast {α : Type} {R : α → α → Prop} :
    ∀ (l : List α) (h : l ≠ []), l.Pairwise R → ∀ x ∈ l,
      x = l.getLast h ∨ R x (l.getLast h) := by
  intro l
  induction l with
  | nil => intro h; exact absurd rfl h
  | cons a t ih =>
    intro h hp x hx
    cases t with
    | nil =>
      rcases List.mem_singleton.mp hx with hx
      subst hx
      exact Or.inl rfl
    | cons b t2 =>
      rw [List.getLast_cons (by simp)]
      rw [List.pairwise_cons] at hp
      rcases List.mem_cons.mp hx with hx | hx
      · subst hx
        exact Or.inr (hp.1 _ (List.getLast_mem _))
      · exact ih (by simp) hp.2 x hx

/-! ### The single-month window at millisecond granularity -/

theorem daysInMonth_bounds (y m : Nat) :
    28 ≤ daysInMonth y m ∧ daysInMonth y m ≤ 31 := by
  unfold daysInMonth
  split_ifs <;> omega

theorem monthWindow_key_iff (y m : Nat) (hm1 : 1 ≤ m) (hm2 : m ≤ 12)
    (t : Timestamp) (hv : t.Valid) :
    ((monthStartDate y m).key ≤ t.key ∧ t.key ≤ (monthEndDate y m).key) ↔
      (t.year = y ∧ t.month = m ∧
        ¬(t.day = daysInMonth y m ∧ t.hour = 23 ∧ t.minute = 59 ∧
          t.second = 59 ∧ 0 < t.ms)) := by
  obtain ⟨Y, M, D, H, Mi, S, MS⟩ := t
  unfold Timestamp.Valid at hv
  simp only at hv
  obtain ⟨hM1, hM2, hD1, hD2, hH, hMi, hS, hMS⟩ := hv
  have hb1 := daysInMonth_bounds Y M
  have hb2 := daysInMonth_bounds y m
  simp only [monthStartDate, monthEndDate, Timestamp.key]
  constructor
  · rintro ⟨h1, h2⟩
    have hYM : Y = y ∧ M = m := by omega
    obtain ⟨rfl, rfl⟩ := hYM
    refine ⟨rfl, rfl, ?_⟩
    rintro ⟨hd, hh, hmi, hs, hms⟩
    omega
  · rintro ⟨rfl, rfl, htail⟩
    have htail' : D ≠ daysInMonth Y M ∨ H ≠ 23 ∨ Mi ≠ 59 ∨ S ≠ 59 ∨ MS = 0 := by
      by_cases h1 : D = daysInMonth Y M
      · by_cases h2 : H = 23
        · by_cases h3 : Mi = 59
          · by_cases h4 : S = 59
            · refine Or.inr (Or.inr (Or.inr (Or.inr ?_)))
              by_contra hms
              exact htail ⟨h1, h2, h3, h4, by omega⟩
            · exact Or.inr (Or.inr (Or.inr (Or.inl h4)))
          · exact Or.inr (Or.inr (Or.inl h3))
        · exact Or.inr (Or.inl h2)
      · exact Or.inl h1
    rcases htail' with h | h | h | h | h <;> omega

/-- C4 (amended): for months 1..12 and events with valid timestamps, the
single-month filter keeps exactly the events whose `deleted_at` lies in the
inclusive window from the month's first instant to the month's last day at
23:59:59.000: an event at exactly the last labelled second is included, while
an event in that second's sub-second tail (e.g. 23:59:59.500) is excluded even
though it is within the month, as is everything after the month. -/
theorem c4_monthFilter_window (y m : Nat) (hm1 : 1 ≤ m) (hm2 : m ≤ 12)
    (r : DeletionEvent) (hv : r.deleted_at.Valid) :
    monthFilterKeep y m r = true ↔
      (r.deleted_at.year = y ∧ r.deleted_at.month = m ∧
        ¬(r.deleted_at.day = daysInMonth y m ∧ r.deleted_at.hour = 23 ∧
          r.deleted_at.minute = 59 ∧ r.deleted_at.second = 59 ∧
          0 < r.deleted_at.ms)) := by
  have h := monthWindow_key_iff y m hm1 hm2 r.deleted_at hv
  simpa [monthFilterKeep, Bool.and_eq_true, decide_eq_true_eq] using h

/-! ### Unfolding the export operations -/

theorem downloadAllLogs_eq_success (data : Option DashboardData)
    (rs : List DeletionEvent) (t : Timestamp) (h : dashEvents data = some rs)
    (hne : rs ≠ []) :
    downloadAllLogs data t =
      .success (allTimeDoc data t (rs.filter (upToFilterKeep t))) := by
  unfold downloadAllLogs
  rw [h]
  simp [hne]

theorem downloadMonthLog_eq_noMatch (data : Option DashboardData)
    (rs : List DeletionEvent) (y m : Nat) (now : Timestamp)
    (h : dashEvents data = some rs) (hne : rs ≠ [])
    (hf : rs.filter (monthFilterKeep y m) = []) :
    downloadMonthLog data y m now =
      .noMatch (getMonthName (m - 1)) (toString y) := by
  unfold downloadMonthLog
  rw [h]
  simp [hne, hf]

theorem downloadMonthLog_eq_success (data : Option DashboardData)
    (rs : List DeletionEvent) (y m : Nat) (now : Timestamp)
    (h : dashEvents data = some rs) (hne : rs ≠ [])
    (hf : rs.filter (monthFilterKeep y m) ≠ []) :
    downloadMonthLog data y m now =
      .success (monthDoc data y m now (rs.filter (monthFilterKeep y m))) := by
  unfold downloadMonthLog
  rw [h]
  simp [hne, hf]

/-! ### Claim C7: empty or absent input -/

/-- C7: on an empty or absent input collection, bucket discovery returns the
empty sequence without error, and both export operations signal the
empty-input condition and assemble no document (rather than producing a
document with zero totals). -/
theorem c7_emptyInput (data : Option DashboardData)
    (h : dashEvents data = none ∨ dashEvents data = some []) :
    getAvailableMonths data = [] ∧
    (∀ t, downloadAllLogs data t = .emptyInput ∧
      (downloadAllLogs data t).doc? = none) ∧
    (∀ y m now, downloadMonthLog data y m now = .emptyInput ∧
      (downloadMonthLog data y m now).doc? = none) := by
  rcases h with h | h <;>
    refine ⟨?_, fun t => ?_, fun y m now => ?_⟩ <;>
      simp [getAvailableMonths, downloadAllLogs, downloadMonthLog, h,
        DownloadResult.doc?]

/-- Witness for C7 at the absent input. -/
theorem c7_witness :
    (dashEvents (none : Option DashboardData) = none ∨
      dashEvents (none : Option DashboardData) = some []) ∧
    (getAvailableMonths (none : Option DashboardData) = [] ∧
     (∀ t, downloadAllLogs none t = .emptyInput ∧
       (downloadAllLogs none t).doc? = none) ∧
     (∀ y m now, downloadMonthLog none y m now = .emptyInput ∧
       (downloadMonthLog none y m now).doc? = none)) :=
  ⟨Or.inl rfl, c7_emptyInput none (Or.inl rfl)⟩

/-! ### Claim C6: month with no matching events -/

/-- C6: on a non-empty input collection, a requested month matching zero
events makes the single-month export signal the no-data condition naming the
requested month and year, and no export document is assembled. -/
theorem c6_noMatch (data : Option DashboardData) (rs : List DeletionEvent)
    (y m : Nat) (now : Timestamp) (h : dashEvents data = some rs)
    (hne : rs ≠ []) (hf : rs.filter (monthFilterKeep y m) = []) :
    downloadMonthLog data y m now =
      .noMatch (getMonthName (m - 1)) (toString y) ∧
    (downloadMonthLog data y m now).doc? = none := by
  have heq := downloadMonthLog_eq_noMatch data rs y m now h hne hf
  exact ⟨heq, by rw [heq]; rfl⟩

/-- Witness for C6: events only in January 2025, February 2025 requested;
the signalled condition names "February" and "2025". -/
theorem c6_witness :
    (dashEvents (some (mkData [eJan])) = some [eJan] ∧
     [eJan] ≠ ([] : List DeletionEvent) ∧
     [eJan].filter (monthFilterKeep 2025 2) = []) ∧
    downloadMonthLog (some (mkData [eJan])) 2025 2 nowTs =
      .noMatch "February" "2025" ∧
    (downloadMonthLog (some (mkData [eJan])) 2025 2 nowTs).doc? = none := by
  refine ⟨⟨rfl, by decide, by decide⟩, ?_⟩
  have h := c6_noMatch (some (mkData [eJan])) [eJan] 2025 2 nowTs rfl
    (by decide) (by decide)
  rw [show getMonthName (2 - 1) = "February" from rfl,
    show toString 2025 = "2025" from rfl] at h
  exact h

/-! ### Claim C8: bucket discovery -/

/-- C8: bucket discovery returns exactly the distinct `YYYY-MM` keys of the
events' deletion timestamps, without duplicates, sorted descending by key
(most recent bucket first). -/
theorem c8_discoverBuckets (data : Option DashboardData)
    (rs : List DeletionEvent) (h : dashEvents data = some rs) :
    (getAvailableMonths data).Nodup ∧
    (∀ k, k ∈ getAvailableMonths data ↔
      ∃ r ∈ rs, r.deleted_at.monthKey = k) ∧
    (getAvailableMonths data).Pairwise (fun a b => strLe b a) := by
  unfold getAvailableMonths
  rw [h]
  dsimp only
  by_cases hne : rs = []
  · subst hne; simp
  · rw [if_neg (by simp [hne])]
    refine ⟨?_, ?_, ?_⟩
    · rw [List.nodup_reverse]
      exact ((sortStr_perm _).nodup_iff).mpr
        (nodup_foldl_addDistinct _ List.nodup_nil)
    · intro k
      rw [List.mem_reverse, (sortStr_perm _).mem_iff, mem_foldl_addDistinct]
      simp [List.mem_map]
    · rw [List.pairwise_reverse]
      exact sortStr_sorted _

/-- Witness for C8 at a two-event input spanning two months. -/
theorem c8_witness :
    dashEvents (some (mkData [eJan, eFeb])) = some [eJan, eFeb] ∧
    ((getAvailableMonths (some (mkData [eJan, eFeb]))).Nodup ∧
     (∀ k, k ∈ getAvailableMonths (some (mkData [eJan, eFeb])) ↔
       ∃ r ∈ [eJan, eFeb], r.deleted_at.monthKey = k) ∧
     (getAvailableMonths (some (mkData [eJan, eFeb]))).Pairwise
       fun a b => strLe b a) :=
  ⟨rfl, c8_discoverBuckets (some (mkData [eJan, eFeb])) [eJan, eFeb] rfl⟩

/-! ### Claim C2: breakdown ordering -/

/-- C2 (amended): the BY_MONTH breakdown is sorted ascending by `YYYY-MM` key
and the BY_DAY breakdown is sorted ascending by `YYYY-MM-DD` key, but the
BY_TYPE breakdown is NOT sorted: its entries appear in order of first
occurrence of each resource type in the filtered subset. -/
theorem c2_breakdown_order (rs : List DeletionEvent) :
    ((monthAlist rs).map Prod.fst).Pairwise strLe ∧
    ((getBreakdownByDay rs).map DayEntry.date).Pairwise strLe ∧
    (getBreakdownByType rs).map TypeEntry.type =
      firstOccur (rs.map DeletionEvent.resource_type) := by
  refine ⟨?_, ?_, ?_⟩
  · rw [List.pairwise_map]
    exact sortByKey_sorted _
  · unfold getBreakdownByDay
    rw [List.map_map, List.pairwise_map]
    exact sortByKey_sorted _
  · unfold getBreakdownByType
    rw [List.map_map]
    exact keys_groupAccum _ _

/-- C2 counterexample: with an EC2 deletion before an EBS deletion, the
BY_TYPE breakdown lists `"EC2"` before `"EBS"`, which is not ascending by
resource-type key. -/
theorem c2_counterexample :
    (getBreakdownByType [eJan, eFeb]).map TypeEntry.type = ["EC2", "EBS"] ∧
    ¬ ((getBreakdownByType [eJan, eFeb]).map TypeEntry.type).Pairwise strLe := by
  decide

/-! ### Claim C5: conservation of counts -/

theorem sumCounts_sortByKey (l : List (String × Accum)) :
    sumCounts (sortByKey l) = sumCounts l :=
  List.Perm.sum_eq ((sortByKey_perm l).map _)

theorem counts_byMonth (rsf : List DeletionEvent) :
    ((getBreakdownByMonth rsf).map MonthEntry.count).sum = rsf.length := by
  have h : (getBreakdownByMonth rsf).map MonthEntry.count =
      (monthAlist rsf).map (fun p => p.2.count) := by
    unfold getBreakdownByMonth
    rw [List.map_map]
    rfl
  rw [h]
  show sumCounts (monthAlist rsf) = rsf.length
  unfold monthAlist
  rw [sumCounts_sortByKey, sumCounts_groupAccum]

theorem counts_byDay (rsf : List DeletionEvent) :
    ((getBreakdownByDay rsf).map DayEntry.count).sum = rsf.length := by
  have h : (getBreakdownByDay rsf).map DayEntry.count =
      (dayAlist rsf).map (fun p => p.2.count) := by
    unfold getBreakdownByDay
    rw [List.map_map]
    rfl
  rw [h]
  show sumCounts (dayAlist rsf) = rsf.length
  unfold dayAlist
  rw [sumCounts_sortByKey, sumCounts_groupAccum]

/-- C5: the ALL_TIME document's `total_resources` equals the sum of the
`count` fields of its BY_MONTH breakdown entries, and the SINGLE_MONTH
document's `total_resources` equals the sum of the `count` fields of its
BY_DAY breakdown entries. -/
theorem c5_conservation (data : Option DashboardData) (t now : Timestamp)
    (y m : Nat) :
    (∀ doc, downloadAllLogs data t = .success doc →
      ∀ l, doc.summary.breakdown_by_month = some l →
        doc.export_info.total_resources = (l.map MonthEntry.count).sum) ∧
    (∀ doc, downloadMonthLog data y m now = .success doc →
      ∀ l, doc.summary.breakdown_by_day = some l →
        doc.export_info.total_resources = (l.map DayEntry.count).sum) := by
  constructor
  · intro doc hdoc l hl
    unfold downloadAllLogs at hdoc
    split at hdoc
    · exact absurd hdoc (by simp)
    · split at hdoc
      · exact absurd hdoc (by simp)
      · injection hdoc with hdoc
        subst hdoc
        simp only [allTimeDoc, Option.some.injEq] at hl
        subst hl
        simpa [allTimeDoc] using (counts_byMonth _).symm
  · intro doc hdoc l hl
    unfold downloadMonthLog at hdoc
    split at hdoc
    · exact absurd hdoc (by simp)
    · split at hdoc
      · exact absurd hdoc (by simp)
      · dsimp only at hdoc
        split at hdoc
        · exact absurd hdoc (by simp)
        · injection hdoc with hdoc
          subst hdoc
          simp only [monthDoc, Option.some.injEq] at hl
          subst hl
          simpa [monthDoc] using (counts_byDay _).symm

/-- Witness for C5 at a one-event input. -/
theorem c5_witness :
    downloadAllLogs (some (mkData [eJan])) nowTs =
      .success (allTimeDoc (some (mkData [eJan])) nowTs [eJan]) ∧
    (allTimeDoc (some (mkData [eJan])) nowTs [eJan]).export_info.total_resources =
      ((getBreakdownByMonth [eJan]).map MonthEntry.count).sum := by
  have hsucc : downloadAllLogs (some (mkData [eJan])) nowTs =
      .success (allTimeDoc (some (mkData [eJan])) nowTs [eJan]) := by
    have h := downloadAllLogs_eq_success (some (mkData [eJan])) [eJan] nowTs rfl
      (by decide)
    rwa [show [eJan].filter (upToFilterKeep nowTs) = [eJan] from by decide] at h
  refine ⟨hsucc, ?_⟩
  exact (c5_conservation (some (mkData [eJan])) nowTs nowTs 2025 1).1
    (allTimeDoc (some (mkData [eJan])) nowTs [eJan]) hsucc
    (getBreakdownByMonth [eJan]) rfl

/-! ### Claim C10: region resolution -/

/-- C10: the resolved region of every enriched record equals the event's own
region when that is a non-empty string, otherwise the configured default
region when that is a non-empty string, otherwise `"us-east-1"`; an event
whose region is the empty string gets the fallback, not the empty string. -/
theorem c10_region (data : Option DashboardData) :
    (∀ r : DeletionEvent, (enrich data r).region =
      regionSpec r.region (dashRegion data)) ∧
    (∀ t doc, downloadAllLogs data t = .success doc →
      ∀ er ∈ doc.deleted_resources, ∃ r : DeletionEvent,
        er = enrich data r ∧ er.region = regionSpec r.region (dashRegion data)) ∧
    (∀ y m now doc, downloadMonthLog data y m now = .success doc →
      ∀ er ∈ doc.deleted_resources, ∃ r : DeletionEvent,
        er = enrich data r ∧ er.region = regionSpec r.region (dashRegion data)) := by
  have hpt : ∀ r : DeletionEvent, (enrich data r).region =
      regionSpec r.region (dashRegion data) := by
    intro r
    unfold enrich regionSpec jsOrString
    cases hr : r.region with
    | none => cases hd : dashRegion data <;> simp
    | some s =>
        cases hd : dashRegion data <;> simp
  refine ⟨hpt, ?_, ?_⟩
  · intro t doc hdoc er her
    unfold downloadAllLogs at hdoc
    split at hdoc
    · exact absurd hdoc (by simp)
    · split at hdoc
      · exact absurd hdoc (by simp)
      · injection hdoc with hdoc
        subst hdoc
        simp only [allTimeDoc] at her
        obtain ⟨r, _, hr⟩ := List.mem_map.mp her
        exact ⟨r, hr.symm, by rw [← hr]; exact hpt r⟩
  · intro y m now doc hdoc er her
    unfold downloadMonthLog at hdoc
    split at hdoc
    · exact absurd hdoc (by simp)
    · split at hdoc
      · exact absurd hdoc (by simp)
      · dsimp only at hdoc
        split at hdoc
        · exact absurd hdoc (by simp)
        · injection hdoc with hdoc
          subst hdoc
          simp only [monthDoc] at her
          obtain ⟨r, _, hr⟩ := List.mem_map.mp her
          exact ⟨r, hr.symm, by rw [← hr]; exact hpt r⟩

/-- Witness for C10: an event whose own region is the empty string resolves
to the configured default region. -/
theorem c10_witness :
    eFeb.region = some "" ∧
    (enrich (some (mkData [eFeb])) eFeb).region = "eu-west-1" ∧
    (enrich (some (mkData [eFeb])) eFeb).region =
      regionSpec eFeb.region (dashRegion (some (mkData [eFeb]))) :=
  ⟨rfl, by decide, (c10_region (some (mkData [eFeb]))).1 eFeb⟩

/-! ### Claim C9: breakdown annualization -/

theorem sum_map_mul12 (l : List (String × Accum)) :
    (l.map (fun p => p.2.savings * 12)).sum = sumSavings l * 12 := by
  induction l with
  | nil => simp [sumSavings]
  | cons q t ih =>
    simp only [List.map_cons, List.sum_cons, sumSavings] at ih ⊢
    rw [ih]
    ring

theorem sum_annual_byType (rs : List DeletionEvent) :
    ((getBreakdownByType rs).map TypeEntry.annual_savings).sum =
      (rs.map msVal).sum * 12 := by
  have h : (getBreakdownByType rs).map TypeEntry.annual_savings =
      (groupAccum (fun r => r.resource_type) rs).map (fun p => p.2.savings * 12) := by
    unfold getBreakdownByType
    rw [List.map_map]
    rfl
  rw [h, sum_map_mul12, sumSavings_groupAccum]

theorem sum_annual_of_forall (l : List DeletionEvent)
    (hl : ∀ r ∈ l, annualValue r = 12 * msVal r) :
    (l.map annualValue).sum = 12 * (l.map msVal).sum := by
  induction l with
  | nil => simp
  | cons x t ih =>
    simp only [List.map_cons, List.sum_cons]
    rw [hl x (by simp), ih (fun r hr => hl r (by simp [hr]))]
    ring

/-- C9 (amended): each BY_TYPE and BY_MONTH entry's annual figure equals the
group's summed monthly savings times 12, ignoring per-event `annual_savings`;
consequently, when exactly one event's annual contribution deviates from 12
times its monthly savings (all other events contributing exactly 12 times
their monthly savings), the sum of the BY_TYPE annual figures disagrees with
`totals.annual_savings_sum`. -/
theorem c9_annualization (l1 l2 : List DeletionEvent) (e : DeletionEvent)
    (hdev : annualValue e ≠ 12 * msVal e)
    (hrest : ∀ r ∈ l1 ++ l2, annualValue r = 12 * msVal r) :
    (∀ en ∈ getBreakdownByType (l1 ++ e :: l2),
      en.annual_savings = en.monthly_savings * 12) ∧
    (∀ en ∈ getBreakdownByMonth (l1 ++ e :: l2),
      en.annual_savings = en.monthly_savings * 12) ∧
    ((getBreakdownByType (l1 ++ e :: l2)).map TypeEntry.annual_savings).sum ≠
      sumBy annualValue (l1 ++ e :: l2) := by
  refine ⟨?_, ?_, ?_⟩
  · intro en hen
    unfold getBreakdownByType at hen
    obtain ⟨p, _, hp⟩ := List.mem_map.mp hen
    rw [← hp]
  · intro en hen
    unfold getBreakdownByMonth at hen
    obtain ⟨p, _, hp⟩ := List.mem_map.mp hen
    rw [← hp]
    rfl
  · rw [sum_annual_byType, sumBy_eq]
    intro heq
    apply hdev
    have hr1 : ∀ r ∈ l1, annualValue r = 12 * msVal r := fun r hr =>
      hrest r (List.mem_append_left _ hr)
    have hr2 : ∀ r ∈ l2, annualValue r = 12 * msVal r := fun r hr =>
      hrest r (List.mem_append_right _ hr)
    simp only [List.map_append, List.map_cons, List.sum_append,
      List.sum_cons] at heq
    rw [sum_annual_of_forall l1 hr1, sum_annual_of_forall l2 hr2] at heq
    linarith

/-! ### Claim C3: totals.annual_savings_sum -/

/-- C3 (amended): both exports' `total_annual_savings` equals the sum over
the filtered events of the event's `annual_savings` when that field is
present AND nonzero, and `monthly_savings * 12` otherwise (`annualValue`); in
particular an event with `annual_savings` present and equal to 0 contributes
`monthly_savings * 12`, not 0. -/
theorem c3_totals_annual (data : Option DashboardData) (rs : List DeletionEvent)
    (t now : Timestamp) (y m : Nat) (h : dashEvents data = some rs)
    (hne : rs ≠ []) :
    (∃ doc, downloadAllLogs data t = .success doc ∧
      doc.export_info.total_annual_savings =
        ((rs.filter (upToFilterKeep t)).map annualValue).sum) ∧
    (∀ doc, downloadMonthLog data y m now = .success doc →
      doc.export_info.total_annual_savings =
        ((rs.filter (monthFilterKeep y m)).map annualValue).sum) ∧
    (∀ r : DeletionEvent, r.annual_savings = some 0 →
      annualValue r = msVal r * 12) := by
  refine ⟨⟨allTimeDoc data t (rs.filter (upToFilterKeep t)),
    downloadAllLogs_eq_success data rs t h hne, sumBy_eq _ _⟩, ?_, ?_⟩
  · intro doc hdoc
    unfold downloadMonthLog at hdoc
    rw [h] at hdoc
    dsimp only at hdoc
    rw [if_neg (by simp [hne])] at hdoc
    split at hdoc
    · exact absurd hdoc (by simp)
    · injection hdoc with hdoc
      subst hdoc
      exact sumBy_eq _ _
  · intro r hr
    simp [annualValue, hr]

/-! ### Claim C1: ALL_TIME date range -/

/-- C1 (amended): in the ALL_TIME document, `date_range.to` is the as-of
timestamp, and `date_range.from` is the `deleted_at` of the LAST element of
the filtered sequence in input order (the as-of timestamp when the filtered
set is empty); when the input collection is ordered newest-first — as the
dashboard's data source provides it — that last element is the
chronologically oldest event of the filtered set. -/
theorem c1_dateRange (data : Option DashboardData) (rs : List DeletionEvent)
    (t : Timestamp) (h : dashEvents data = some rs) (hne : rs ≠ [])
    (hsort : NewestFirst rs) :
    ∃ doc, downloadAllLogs data t = .success doc ∧
      doc.export_info.date_range.toTime = t ∧
      ((rs.filter (upToFilterKeep t) = [] ∧
        doc.export_info.date_range.fromTime = t) ∨
       (doc.export_info.date_range.fromTime ∈
          (rs.filter (upToFilterKeep t)).map DeletionEvent.deleted_at ∧
        ∀ r ∈ rs.filter (upToFilterKeep t),
          doc.export_info.date_range.fromTime.key ≤ r.deleted_at.key)) := by
  refine ⟨_, downloadAllLogs_eq_success data rs t h hne, rfl, ?_⟩
  by_cases hfe : rs.filter (upToFilterKeep t) = []
  · left
    refine ⟨hfe, ?_⟩
    show (match (rs.filter (upToFilterKeep t)).getLast? with
      | some r => r.deleted_at | none => t) = t
    rw [hfe]
    rfl
  · right
    have hlast := List.getLast?_eq_getLast (rs.filter (upToFilterKeep t)) hfe
    have hfrom : (allTimeDoc data t
        (rs.filter (upToFilterKeep t))).export_info.date_range.fromTime =
        ((rs.filter (upToFilterKeep t)).getLast hfe).deleted_at := by
      show (match (rs.filter (upToFilterKeep t)).getLast? with
        | some r => r.deleted_at | none => t) = _
      rw [hlast]
    rw [hfrom]
    constructor
    · exact List.mem_map.mpr ⟨_, List.getLast_mem hfe, rfl⟩
    · intro r hr
      have hps : (rs.filter (upToFilterKeep t)).Pairwise
          (fun a b => b.deleted_at.key ≤ a.deleted_at.key) :=
        hsort.sublist (List.filter_sublist rs)
      rcases pairwise_getLast _ hfe hps r hr with heq | hle
      · rw [heq]
      · exact hle

/-- Witness for C1 at a two-event input ordered newest-first. -/
theorem c1_witness :
    (dashEvents (some (mkData [eFeb, eJan])) = some [eFeb, eJan] ∧
     [eFeb, eJan] ≠ ([] : List DeletionEvent) ∧ NewestFirst [eFeb, eJan]) ∧
    (∃ doc, downloadAllLogs (some (mkData [eFeb, eJan])) nowTs = .success doc ∧
      doc.export_info.date_range.toTime = nowTs ∧
      (([eFeb, eJan].filter (upToFilterKeep nowTs) = [] ∧
        doc.export_info.date_range.fromTime = nowTs) ∨
       (doc.export_info.date_range.fromTime ∈
          ([eFeb, eJan].filter (upToFilterKeep nowTs)).map DeletionEvent.deleted_at ∧
        ∀ r ∈ [eFeb, eJan].filter (upToFilterKeep nowTs),
          doc.export_info.date_range.fromTime.key ≤ r.deleted_at.key))) :=
  ⟨⟨rfl, by decide, by decide⟩,
    c1_dateRange (some (mkData [eFeb, eJan])) [eFeb, eJan] nowTs rfl
      (by decide) (by decide)⟩

/-- C1 counterexample: with the input ordered oldest-first (January before
February, both kept by the filter), the ALL_TIME `date_range.from` is the
February event's timestamp — the last element of the filtered sequence — not
the chronologically oldest (January) event's timestamp. -/
theorem c1_counterexample :
    ((downloadAllLogs (some (mkData [eJan, eFeb])) nowTs).doc?.map
      fun doc => doc.export_info.date_range.fromTime) = some eFeb.deleted_at ∧
    upToFilterKeep nowTs eJan = true ∧ upToFilterKeep nowTs eFeb = true ∧
    eJan.deleted_at.key < eFeb.deleted_at.key ∧
    eFeb.deleted_at ≠ eJan.deleted_at := by
  decide

/-- Witness for C3 at a one-event input. -/
theorem c3_witness :
    (dashEvents (some (mkData [eJan])) = some [eJan] ∧
     [eJan] ≠ ([] : List DeletionEvent)) ∧
    ((∃ doc, downloadAllLogs (some (mkData [eJan])) nowTs = .success doc ∧
       doc.export_info.total_annual_savings =
         (([eJan].filter (upToFilterKeep nowTs)).map annualValue).sum) ∧
     (∀ doc, downloadMonthLog (some (mkData [eJan])) 2025 1 nowTs = .success doc →
       doc.export_info.total_annual_savings =
         (([eJan].filter (monthFilterKeep 2025 1)).map annualValue).sum) ∧
     (∀ r : DeletionEvent, r.annual_savings = some 0 →
       annualValue r = msVal r * 12)) :=
  ⟨⟨rfl, by decide⟩,
    c3_totals_annual (some (mkData [eJan])) [eJan] nowTs nowTs 2025 1 rfl
      (by decide)⟩

/-- Witness for C4: the event at exactly 2025-01-31T23:59:59.000, January's
last labelled second, is kept by the January 2025 filter. -/
theorem c4_witness :
    (1 ≤ 1 ∧ (1 : Nat) ≤ 12 ∧ eBoundary.deleted_at.Valid) ∧
    monthFilterKeep 2025 1 eBoundary = true :=
  ⟨⟨by decide, by decide, by decide⟩,
    (c4_monthFilter_window 2025 1 (by decide) (by decide) eBoundary
      (by decide)).mpr (by decide)⟩

/-- C4 counterexample: the event at 2025-01-31T23:59:59.500 has a valid
timestamp inside January 2025, yet the January filter rejects it; with it as
the only event, the January 2025 export signals "no data" instead of
including it. -/
theorem c4_counterexample :
    eTail.deleted_at.year = 2025 ∧ eTail.deleted_at.month = 1 ∧
    eTail.deleted_at.Valid ∧ monthFilterKeep 2025 1 eTail = false ∧
    downloadMonthLog (some (mkData [eTail])) 2025 1 nowTs =
      .noMatch "January" "2025" := by
  decide

section

attribute [local semireducible] Rat.add Rat.mul

/-- Witness for C9: a single event with explicit annual savings 100 and
monthly savings 10 (so its annual contribution deviates from 120). -/
theorem c9_witness :
    (annualValue eDev ≠ 12 * msVal eDev ∧
     (∀ r ∈ ([] : List DeletionEvent) ++ [], annualValue r = 12 * msVal r)) ∧
    ((∀ en ∈ getBreakdownByType [eDev],
       en.annual_savings = en.monthly_savings * 12) ∧
     (∀ en ∈ getBreakdownByMonth [eDev],
       en.annual_savings = en.monthly_savings * 12) ∧
     ((getBreakdownByType [eDev]).map TypeEntry.annual_savings).sum ≠
       sumBy annualValue [eDev]) :=
  ⟨⟨by decide, by simp⟩, c9_annualization [] [] eDev (by decide) (by simp)⟩

/-- C9 counterexample: a single event whose explicit `annual_savings` (0)
differs from 12 times its monthly savings (240), yet the BY_TYPE annual sum
and the totals' annual sum agree (both 240), because the zero annual value is
falsy and falls back to `monthly_savings * 12` in the totals as well. -/
theorem c9_counterexample :
    eFeb.annual_savings = some 0 ∧ msVal eFeb = 20 ∧ (0 : Rat) ≠ 20 * 12 ∧
    ((getBreakdownByType [eFeb]).map TypeEntry.annual_savings).sum = 240 ∧
    sumBy annualValue [eFeb] = 240 := by
  decide

/-- C3 counterexample: the event with `annual_savings` present and equal to 0
contributes 240 (= 20 * 12), not 0, to the ALL_TIME total, so the document
total is 240 where the claim's formula yields 0. -/
theorem c3_counterexample :
    eFeb.annual_savings = some 0 ∧
    ((downloadAllLogs (some (mkData [eFeb])) nowTs).doc?.map
      fun doc => doc.export_info.total_annual_savings) = some 240 ∧
    (240 : Rat) ≠ 0 := by
  decide

end

end CostGuardian
